import Mathlib

/-!
Verification of the imgproxy HTTP server core (`src/server.go`): the error
taxonomy constructors, the middleware chain (metrics, panic handling, CORS,
secret authentication), the health and HEAD handlers, the route table, and
the server/listener settings.

Go code under `src/server.go` is translated directly.  The repository
packages `ierrors`, `router`, `config`, `metrics`, `errorreport` and `vips`
are not part of `src/`; where their behavior decides a claim their narrow
contract is modelled from the spec (each such definition carries a
doc comment saying so).  Side effects on the HTTP response writer, the
response logger and the error reporter are modelled as an explicit trace.
-/

/-- Underlying (non-structured) failure values that occur in this core.
The four concrete kinds come from `src/server.go` (`ResponseWriteError`,
`InvalidURLError`, `TooManyRequestsError`, `InvalidSecretError`);
`generic` stands for any other Go `error` (e.g. a vips health failure). -/
inductive BaseError where
  | invalidSecret
  | tooManyRequests
  | invalidURL (msg : String)
  | responseWrite (causeMsg : String)
  | generic (msg : String)
deriving DecidableEq, Repr

/-- The Go `Error()` strings of the concrete error kinds, as defined by the
`Error()` methods in `src/server.go`. -/
def BaseError.errorString : BaseError → String
  | .invalidSecret => "Invalid secret"
  | .tooManyRequests => "Too many requests"
  | .invalidURL m => m
  | .responseWrite c => "Failed to write response: " ++ c
  | .generic m => m

/-- Modelled from the spec: `StructuredError` (`ierrors.Error`) carries the
cause, an HTTP status, a public-safe message and a should-report flag
(stack metadata is ignored: it is "used only for diagnostic rendering,
not for control decisions"). -/
structure SError where
  cause : BaseError
  status : Nat
  pubMsg : String
  report : Bool
deriving DecidableEq, Repr

/-- A Go `error` value in this core: either a plain error or an already
structured `*ierrors.Error`. -/
inductive GoError where
  | base (b : BaseError)
  | structured (e : SError)
deriving DecidableEq, Repr

/-- Modelled from the spec: the options accepted by `ierrors.Wrap`
(`WithStatusCode`, `WithPublicMessage`, `WithShouldReport`). -/
inductive WrapOption where
  | withStatusCode (n : Nat)
  | withPublicMessage (s : String)
  | withShouldReport (b : Bool)
deriving DecidableEq, Repr

/-- Applying one wrap option to a structured error. -/
def applyOption (e : SError) : WrapOption → SError
  | .withStatusCode n => { e with status := n }
  | .withPublicMessage s => { e with pubMsg := s }
  | .withShouldReport b => { e with report := b }

/-- Modelled from the spec: `ierrors.Wrap(cause, skipFrames, options...)`
"normalizes any failure into the taxonomy.  If `cause` is already a
StructuredError, returns it unchanged (idempotent).  Options set status
code, public message, and report flag; unset options keep prior values or
defaults (status 500, generic Internal Server Error message, report=true)."
The `skipFrames` argument only affects stack metadata and is ignored. -/
def Wrap (cause : GoError) (_skipFrames : Nat) (opts : List WrapOption) : SError :=
  opts.foldl applyOption
    (match cause with
     | .structured e => e
     | .base b => ⟨b, 500, "Internal Server Error", true⟩)

/-- Modelled from the spec: `fullMessage()` / `Error()` of a structured
error is the full diagnostic message of its cause. -/
def SError.errorMsg (e : SError) : String := e.cause.errorString

/-- Modelled from the spec: `statusCode()` accessor. -/
def SError.statusCode (e : SError) : Nat := e.status

/-- Modelled from the spec: `publicMessage()` accessor. -/
def SError.publicMessage (e : SError) : String := e.pubMsg

/-- Modelled from the spec: `shouldReport()` accessor. -/
def SError.shouldReport (e : SError) : Bool := e.report

/-- Function `newResponseWriteError` from `src/server.go`: wraps the cause with only
a public message. -/
def newResponseWriteError (causeMsg : String) : SError :=
  Wrap (.base (.responseWrite causeMsg)) 1
    [.withPublicMessage "Failed to write response"]

/-- Function `newInvalidURLErrorf` from `src/server.go`: caller-specified status,
public message "Invalid URL", not reported. -/
def newInvalidURLErrorf (status : Nat) (msg : String) : SError :=
  Wrap (.base (.invalidURL msg)) 1
    [.withStatusCode status, .withPublicMessage "Invalid URL",
     .withShouldReport false]

/-- Function `newTooManyRequestsError` from `src/server.go`: status 429
(`http.StatusTooManyRequests`), public message "Too many requests",
not reported. -/
def newTooManyRequestsError : SError :=
  Wrap (.base .tooManyRequests) 1
    [.withStatusCode 429, .withPublicMessage "Too many requests",
     .withShouldReport false]

/-- Function `newInvalidSecretError` from `src/server.go`: status 403
(`http.StatusForbidden`), public message "Forbidden", not reported. -/
def newInvalidSecretError : SError :=
  Wrap (.base .invalidSecret) 1
    [.withStatusCode 403, .withPublicMessage "Forbidden",
     .withShouldReport false]

/-- C5: each error-taxonomy constructor produces a StructuredError with
exactly its fixed policy: response-write failure has the default status 500,
public message "Failed to write response" and is reported (default `true`);
invalid-URL has the caller-specified status, "Invalid URL", not reported;
rate-limit has 429, "Too many requests", not reported; invalid-secret has
403, "Forbidden", not reported. -/
theorem error_constructors_policy :
    (∀ c : String,
      (newResponseWriteError c).statusCode = 500 ∧
      (newResponseWriteError c).publicMessage = "Failed to write response" ∧
      (newResponseWriteError c).shouldReport = true) ∧
    (∀ (s : Nat) (m : String),
      (newInvalidURLErrorf s m).statusCode = s ∧
      (newInvalidURLErrorf s m).publicMessage = "Invalid URL" ∧
      (newInvalidURLErrorf s m).shouldReport = false) ∧
    (newTooManyRequestsError.statusCode = 429 ∧
      newTooManyRequestsError.publicMessage = "Too many requests" ∧
      newTooManyRequestsError.shouldReport = false) ∧
    (newInvalidSecretError.statusCode = 403 ∧
      newInvalidSecretError.publicMessage = "Forbidden" ∧
      newInvalidSecretError.shouldReport = false) := by
  refine ⟨fun c => ⟨rfl, rfl, rfl⟩, fun s m => ⟨rfl, rfl, rfl⟩,
    ⟨rfl, rfl, rfl⟩, ⟨rfl, rfl, rfl⟩⟩

/-- A value raised by `panic` in Go, as observed by the recovery boundary in
`withPanicHandler`: the designated `http.ErrAbortHandler` sentinel, some
value that is not an `error` (the `rerr.(error)` type assertion fails), or
an `error` value. -/
inductive PanicVal where
  | errAbortHandler
  | notAnError (tag : Nat)
  | err (e : GoError)
deriving DecidableEq, Repr

/-- The slice of the process configuration consumed by `src/server.go`
(`config.AllowOrigin`, `config.Secret`, `config.DevelopmentErrorsMode`,
`metrics.Enabled()`, `config.MaxClients`, `config.ReadRequestTimeout`,
`config.KeepAliveTimeout`).  The numeric fields are Go `int`s. -/
structure Config where
  allowOrigin : String
  secret : String
  developmentErrorsMode : Bool
  metricsEnabled : Bool
  maxClients : Int
  readRequestTimeout : Int
  keepAliveTimeout : Int
deriving DecidableEq, Repr

/-- The part of an HTTP request the middleware chain inspects. -/
structure Request where
  authorization : String
deriving DecidableEq, Repr

/-- The observable effects of handling one request: response headers,
`WriteHeader` calls, body writes, `router.LogResponse` calls and
`errorreport.Report` calls, plus metrics span open/close counts. -/
structure Trace where
  headers : List (String × String)
  statuses : List Nat
  bodyWrites : List String
  logs : List (Nat × Option SError)
  reports : List GoError
  spansOpened : Nat
  spansClosed : Nat
deriving DecidableEq, Repr

/-- The empty trace: nothing observed yet. -/
def Trace.empty : Trace := ⟨[], [], [], [], [], 0, 0⟩

/-- Go `rw.Header().Set(k, v)`: replaces any previous value of the key. -/
def Trace.setHeader (t : Trace) (k v : String) : Trace :=
  { t with headers := (k, v) :: t.headers.filter (fun p => p.1 != k) }

/-- Go `rw.WriteHeader(s)`. -/
def Trace.writeHeader (t : Trace) (s : Nat) : Trace :=
  { t with statuses := t.statuses ++ [s] }

/-- Go `rw.Write(b)`. -/
def Trace.write (t : Trace) (b : String) : Trace :=
  { t with bodyWrites := t.bodyWrites ++ [b] }

/-- Go `router.LogResponse(reqID, r, status, err)`. -/
def Trace.logResponse (t : Trace) (s : Nat) (e : Option SError) : Trace :=
  { t with logs := t.logs ++ [(s, e)] }

/-- Go `errorreport.Report(err, r)`. -/
def Trace.reportErr (t : Trace) (e : GoError) : Trace :=
  { t with reports := t.reports ++ [e] }

/-- A `router.RouteHandler`: consumes the request and the trace so far,
returns the extended trace and the panic value, if the handler panicked. -/
def RouteHandler : Type := Request → Trace → Trace × Option PanicVal

/-- Go `crypto/subtle.ConstantTimeCompare` on byte strings, modelled on the
characters of the Lean strings: 0 when the lengths differ, otherwise 1
exactly when the OR of all byte XORs is zero. -/
def constantTimeCompare (x y : List Char) : Nat :=
  if x.length ≠ y.length then 0
  else if (List.zipWith (fun a b => a.toNat ^^^ b.toNat) x y).foldl
      (· ||| ·) 0 = 0 then 1 else 0

theorem lor_eq_zero_iff (a b : Nat) : a ||| b = 0 ↔ a = 0 ∧ b = 0 := by
  constructor
  · intro h
    have ht : ∀ i, a.testBit i = false ∧ b.testBit i = false := by
      intro i
      have := congrArg (fun n => n.testBit i) h
      simp at this
      exact this
    exact ⟨Nat.eq_of_testBit_eq (fun i => by simp [(ht i).1]),
           Nat.eq_of_testBit_eq (fun i => by simp [(ht i).2])⟩
  · rintro ⟨rfl, rfl⟩; rfl

theorem foldl_or_eq_zero (l : List Nat) (a : Nat) :
    l.foldl (· ||| ·) a = 0 ↔ a = 0 ∧ ∀ b ∈ l, b = 0 := by
  induction l generalizing a with
  | nil => simp
  | cons x xs ih =>
    simp only [List.foldl_cons, ih, lor_eq_zero_iff, List.mem_cons]
    constructor
    · rintro ⟨⟨ha, hx⟩, hxs⟩
      exact ⟨ha, fun b hb => by rcases hb with rfl | hb; exact hx; exact hxs b hb⟩
    · rintro ⟨ha, hall⟩
      exact ⟨⟨ha, hall x (Or.inl rfl)⟩, fun b hb => hall b (Or.inr hb)⟩

theorem char_toNat_inj {c d : Char} (h : c.toNat = d.toNat) : c = d := by
  have := congrArg Char.ofNat h
  simpa using this

theorem zipWith_xor_zero_iff (x : List Char) :
    ∀ y : List Char, x.length = y.length →
      ((∀ b ∈ List.zipWith (fun a b => a.toNat ^^^ b.toNat) x y, b = 0) ↔ x = y) := by
  induction x with
  | nil =>
    intro y hlen
    cases y with
    | nil => simp
    | cons d ys => simp at hlen
  | cons c xs ih =>
    intro y hlen
    cases y with
    | nil => simp at hlen
    | cons d ys =>
      simp only [List.length_cons, Nat.succ.injEq] at hlen
      simp only [List.zipWith_cons_cons, List.mem_cons, List.cons.injEq]
      constructor
      · intro hall
        have hc : c = d := char_toNat_inj (Nat.xor_eq_zero.mp (hall _ (Or.inl rfl)))
        exact ⟨hc, (ih ys hlen).mp (fun b hb => hall b (Or.inr hb))⟩
      · rintro ⟨rfl, rfl⟩
        intro b hb
        rcases hb with rfl | hb
        · exact Nat.xor_self _
        · exact (ih xs rfl).mpr rfl b hb

theorem constantTimeCompare_eq_one_iff (x y : List Char) :
    constantTimeCompare x y = 1 ↔ x = y := by
  unfold constantTimeCompare
  by_cases hlen : x.length = y.length
  · simp only [hlen, ne_eq, not_true_eq_false, if_false]
    by_cases hz :
        (List.zipWith (fun a b => a.toNat ^^^ b.toNat) x y).foldl (· ||| ·) 0 = 0
    · simp only [hz, if_true, true_iff]
      exact (zipWith_xor_zero_iff x y hlen).mp ((foldl_or_eq_zero _ _).mp hz).2
    · simp only [hz, if_false]
      constructor
      · intro h; exact absurd h (by decide)
      · rintro rfl
        exact absurd ((foldl_or_eq_zero _ _).mpr
          ⟨rfl, (zipWith_xor_zero_iff x x rfl).mpr rfl⟩) hz
  · simp only [ne_eq, hlen, not_false_eq_true, if_true]
    constructor
    · intro h; exact absurd h (by decide)
    · rintro rfl; exact absurd rfl hlen

theorem string_data_inj {s t : String} (h : s.data = t.data) : s = t := by
  cases s; cases t; exact congrArg String.mk h

/-- Function `withSecret` from `src/server.go`: identity when no secret is
configured; otherwise delegates only when the `Authorization` header equals
`"Bearer <secret>"` under `subtle.ConstantTimeCompare`, and panics with
`newInvalidSecretError()` otherwise. -/
def withSecret (cfg : Config) (h : RouteHandler) : RouteHandler :=
  if cfg.secret.length = 0 then h
  else fun r st =>
    if constantTimeCompare r.authorization.data
        ("Bearer " ++ cfg.secret).data = 1 then
      h r st
    else
      (st, some (.err (.structured newInvalidSecretError)))

/-- Function `withCORS` from `src/server.go`: when an allow-origin is configured,
sets the two CORS headers before delegating; otherwise delegates directly. -/
def withCORS (cfg : Config) (h : RouteHandler) : RouteHandler :=
  fun r st =>
    let st' := if cfg.allowOrigin.length > 0 then
        (st.setHeader "Access-Control-Allow-Origin" cfg.allowOrigin).setHeader
          "Access-Control-Allow-Methods" "GET, OPTIONS"
      else st
    h r st'

/-- Function `withMetrics` from `src/server.go`: identity when metrics are disabled;
otherwise opens a measurement span, runs the inner handler, and the
deferred `metricsCancel` closes the span on every exit path. -/
def withMetrics (cfg : Config) (h : RouteHandler) : RouteHandler :=
  if !cfg.metricsEnabled then h
  else fun r st =>
    let res := h r { st with spansOpened := st.spansOpened + 1 }
    ({ res.1 with spansClosed := res.1.spansClosed + 1 }, res.2)

/-- Function `withPanicHandler` from `src/server.go`: installs a recovery boundary
around the inner handler (`errorreport.StartRequest` and `SetMetadata` only
tag the request's diagnostic context and have no effect modelled in the
trace).  A recovered `http.ErrAbortHandler` or non-`error` value is
re-raised; an `error` value is normalized with `ierrors.Wrap(err, 0)`,
reported when `ShouldReport()` holds, logged via `router.LogResponse`, and
rendered as a plain-text response. -/
def withPanicHandler (cfg : Config) (h : RouteHandler) : RouteHandler :=
  fun r st =>
    match h r st with
    | (st', none) => (st', none)
    | (st', some .errAbortHandler) => (st', some .errAbortHandler)
    | (st', some (.notAnError t)) => (st', some (.notAnError t))
    | (st', some (.err e)) =>
      let ierr := Wrap e 0 []
      let st1 := if ierr.shouldReport then st'.reportErr e else st'
      let st2 := st1.logResponse ierr.statusCode (some ierr)
      let st3 := st2.setHeader "Content-Type" "text/plain"
      let st4 := st3.writeHeader ierr.statusCode
      let st5 := st4.write (if cfg.developmentErrorsMode then ierr.errorMsg
        else ierr.publicMessage)
      (st5, none)

/-- C3: `withSecret` is the identity when no secret is configured; with a
secret configured it delegates exactly when the `Authorization` header
equals `"Bearer <secret>"`, and on any other value returns unchanged state
(inner handler not invoked) together with a raised invalid-secret failure
carrying status 403, public message "Forbidden" and `shouldReport = false`. -/
theorem withSecret_spec (cfg : Config) (h : RouteHandler) (r : Request)
    (st : Trace) :
    (cfg.secret.length = 0 → withSecret cfg h = h) ∧
    (cfg.secret.length ≠ 0 →
      (r.authorization = "Bearer " ++ cfg.secret →
        withSecret cfg h r st = h r st) ∧
      (r.authorization ≠ "Bearer " ++ cfg.secret →
        withSecret cfg h r st =
          (st, some (.err (.structured newInvalidSecretError))) ∧
        newInvalidSecretError.statusCode = 403 ∧
        newInvalidSecretError.publicMessage = "Forbidden" ∧
        newInvalidSecretError.shouldReport = false)) := by
  constructor
  · intro hs
    unfold withSecret
    rw [if_pos hs]
  · intro hs
    constructor
    · intro hauth
      unfold withSecret
      rw [if_neg hs]
      have hc : constantTimeCompare r.authorization.data
          ("Bearer " ++ cfg.secret).data = 1 :=
        (constantTimeCompare_eq_one_iff _ _).mpr (by rw [hauth])
      simp only [hc, if_true]
    · intro hauth
      refine ⟨?_, rfl, rfl, rfl⟩
      unfold withSecret
      rw [if_neg hs]
      have hc : constantTimeCompare r.authorization.data
          ("Bearer " ++ cfg.secret).data ≠ 1 := by
        intro hone
        exact hauth (string_data_inj ((constantTimeCompare_eq_one_iff _ _).mp hone))
      simp only [hc, if_false]

/-- A configuration with a secret configured, used as concrete input. -/
def cfgSecretW : Config := ⟨"", "s3cr3t", false, false, 0, 10, 0⟩

/-- A configuration with no secret, no CORS, metrics disabled. -/
def cfgPlainW : Config := ⟨"", "", false, false, 0, 10, 0⟩

/-- An inner handler that completes normally without touching the trace. -/
def innerNoop : RouteHandler := fun _ st => (st, none)

theorem withSecret_spec_witness :
    cfgSecretW.secret.length ≠ 0 ∧
    (⟨"wrong"⟩ : Request).authorization ≠ "Bearer " ++ cfgSecretW.secret ∧
    withSecret cfgSecretW innerNoop ⟨"wrong"⟩ Trace.empty =
      (Trace.empty, some (.err (.structured newInvalidSecretError))) := by
  refine ⟨by decide, by decide, ?_⟩
  exact (((withSecret_spec cfgSecretW innerNoop ⟨"wrong"⟩ Trace.empty).2
    (by decide)).2 (by decide)).1

/-- C1: when the panic handler recovers an `error` panic and renders it
(starting from an untouched response), exactly one status is written, the
`Content-Type` header is `text/plain`, the status is the normalized error's
`statusCode()`, the body is the full `Error()` message in development mode
and `publicMessage()` otherwise, and the error is reported exactly when
`shouldReport()` is true. -/
theorem withPanicHandler_renders (cfg : Config) (h : RouteHandler)
    (r : Request) (st1 : Trace) (e : GoError)
    (hrun : h r Trace.empty = (st1, some (.err e)))
    (hnostatus : st1.statuses = []) (hnobody : st1.bodyWrites = []) :
    ∃ st2, withPanicHandler cfg h r Trace.empty = (st2, none) ∧
      st2.statuses = [(Wrap e 0 []).statusCode] ∧
      ("Content-Type", "text/plain") ∈ st2.headers ∧
      st2.bodyWrites = [if cfg.developmentErrorsMode then (Wrap e 0 []).errorMsg
        else (Wrap e 0 []).publicMessage] ∧
      st2.reports = (if (Wrap e 0 []).shouldReport then st1.reports ++ [e]
        else st1.reports) := by
  unfold withPanicHandler
  simp only [hrun]
  refine ⟨_, rfl, ?_, ?_, ?_, ?_⟩ <;>
    (by_cases hrep : (Wrap e 0 []).shouldReport <;>
      simp [hrep, Trace.write, Trace.writeHeader, Trace.setHeader,
        Trace.logResponse, Trace.reportErr, hnostatus, hnobody])

/-- An inner handler that panics with a plain (non-structured) error. -/
def innerPanicBoom : RouteHandler :=
  fun _ st => (st, some (.err (.base (.generic "boom"))))

theorem withPanicHandler_renders_witness :
    innerPanicBoom ⟨""⟩ Trace.empty =
      (Trace.empty, some (.err (.base (.generic "boom")))) ∧
    Trace.empty.statuses = [] ∧ Trace.empty.bodyWrites = [] ∧
    ∃ st2, withPanicHandler cfgPlainW innerPanicBoom ⟨""⟩ Trace.empty =
        (st2, none) ∧
      st2.statuses = [(Wrap (.base (.generic "boom")) 0 []).statusCode] ∧
      ("Content-Type", "text/plain") ∈ st2.headers ∧
      st2.bodyWrites = [if cfgPlainW.developmentErrorsMode
        then (Wrap (.base (.generic "boom")) 0 []).errorMsg
        else (Wrap (.base (.generic "boom")) 0 []).publicMessage] ∧
      st2.reports = (if (Wrap (.base (.generic "boom")) 0 []).shouldReport
        then Trace.empty.reports ++ [.base (.generic "boom")]
        else Trace.empty.reports) :=
  ⟨rfl, rfl, rfl,
    withPanicHandler_renders cfgPlainW innerPanicBoom ⟨""⟩ Trace.empty
      (.base (.generic "boom")) rfl rfl rfl⟩

/-- C2: the recovery boundary converts every raised value to a response,
except exactly two shapes that are re-raised untouched: the
`http.ErrAbortHandler` sentinel and any value that is not an `error`.
A raised `error` never escapes: the wrapper returns without a panic,
having written a response. -/
theorem withPanicHandler_reraise (cfg : Config) (h : RouteHandler)
    (r : Request) (st : Trace) :
    (∀ st', h r st = (st', none) →
      withPanicHandler cfg h r st = (st', none)) ∧
    (∀ st', h r st = (st', some .errAbortHandler) →
      withPanicHandler cfg h r st = (st', some .errAbortHandler)) ∧
    (∀ st' t, h r st = (st', some (.notAnError t)) →
      withPanicHandler cfg h r st = (st', some (.notAnError t))) ∧
    (∀ st' e, h r st = (st', some (.err e)) →
      (withPanicHandler cfg h r st).2 = none ∧
      (withPanicHandler cfg h r st).1.statuses =
        st'.statuses ++ [(Wrap e 0 []).statusCode]) := by
  refine ⟨?_, ?_, ?_, ?_⟩
  · intro st' hr; unfold withPanicHandler; rw [hr]
  · intro st' hr; unfold withPanicHandler; rw [hr]
  · intro st' t hr; unfold withPanicHandler; rw [hr]
  · intro st' e hr
    unfold withPanicHandler
    rw [hr]
    refine ⟨rfl, ?_⟩
    by_cases hrep : (Wrap e 0 []).shouldReport <;>
      simp [hrep, Trace.write, Trace.writeHeader, Trace.setHeader,
        Trace.logResponse, Trace.reportErr]

/-- An inner handler that panics with the `http.ErrAbortHandler` sentinel. -/
def innerPanicAbort : RouteHandler := fun _ st => (st, some .errAbortHandler)

theorem withPanicHandler_reraise_witness :
    innerPanicAbort ⟨""⟩ Trace.empty = (Trace.empty, some .errAbortHandler) ∧
    withPanicHandler cfgPlainW innerPanicAbort ⟨""⟩ Trace.empty =
      (Trace.empty, some .errAbortHandler) :=
  ⟨rfl, (withPanicHandler_reraise cfgPlainW innerPanicAbort ⟨""⟩
    Trace.empty).2.1 Trace.empty rfl⟩

/-- The empty-body substitution in `handleHealth` (`src/server.go`): a
single space replaces a zero-length message. -/
def healthBody (msg : String) : String :=
  if msg.length = 0 then " " else msg

/-- Function `handleHealth` from `src/server.go`, parametrized by the result of
`vips.Health()` (`none` = healthy, `some m` = the failure message): picks
status/message/wrapped error, substitutes a space for an empty body, logs
only on failure, sets `Content-Type` and `Cache-Control`, writes the status
and the body. -/
def handleHealth (health : Option String) : RouteHandler :=
  fun _ st =>
    let pick : Nat × String × Option SError :=
      match health with
      | none => (200, "imgproxy is running", none)
      | some m => (500, "Error", some (Wrap (.base (.generic m)) 1 []))
    let status := pick.1
    let msg := healthBody pick.2.1
    let st1 := match pick.2.2 with
      | some ie => st.logResponse status (some ie)
      | none => st
    let st2 := (st1.setHeader "Content-Type" "text/plain").setHeader
      "Cache-Control" "no-cache"
    ((st2.writeHeader status).write msg, none)

/-- C4: the health handler returns 200 with body exactly
"imgproxy is running" and no log line when the engine is healthy, and 500
with body "Error" and exactly one log line carrying the wrapped failure
when it is not; in both cases `Content-Type: text/plain` and
`Cache-Control: no-cache` are set, and the computed body is never empty
(a space is substituted for a zero-length body). -/
theorem handleHealth_spec (health : Option String) (r : Request) (st : Trace) :
    ∃ st', handleHealth health r st = (st', none) ∧
      ("Content-Type", "text/plain") ∈ st'.headers ∧
      ("Cache-Control", "no-cache") ∈ st'.headers ∧
      (∀ m : String, (healthBody m).length ≠ 0) ∧
      st'.statuses = st.statuses ++
        [match health with | none => 200 | some _ => 500] ∧
      st'.bodyWrites = st.bodyWrites ++
        [match health with | none => "imgproxy is running" | some _ => "Error"] ∧
      st'.logs = st.logs ++
        (match health with
         | none => []
         | some m => [(500, some (Wrap (.base (.generic m)) 1 []))]) := by
  have hb : ∀ m : String, (healthBody m).length ≠ 0 := by
    intro m
    unfold healthBody
    by_cases h : m.length = 0
    · rw [if_pos h]; decide
    · rw [if_neg h]; exact h
  cases health with
  | none =>
    refine ⟨_, rfl, ?_, ?_, hb, ?_, ?_, ?_⟩ <;>
      simp [handleHealth, healthBody, Trace.write, Trace.writeHeader,
        Trace.setHeader, Trace.logResponse] <;> decide
  | some m =>
    refine ⟨_, rfl, ?_, ?_, hb, ?_, ?_, ?_⟩ <;>
      simp [handleHealth, healthBody, Trace.write, Trace.writeHeader,
        Trace.setHeader, Trace.logResponse] <;> decide

/-- Function `handleHead` from `src/server.go`: logs a 200 response and writes
status 200, with no body. -/
def handleHead : RouteHandler :=
  fun _ st => ((st.logResponse 200 none).writeHeader 200, none)

/-- The handler composition registered in `buildRouter` (`src/server.go`),
as a syntax tree: leaves are the registered handler functions, the other
constructors are the middleware wrappers. -/
inductive HandlerExpr where
  | handleLanding
  | handleProcessing
  | handleHead
  | metrics (h : HandlerExpr)
  | panicHandler (h : HandlerExpr)
  | cors (h : HandlerExpr)
  | secret (h : HandlerExpr)
deriving DecidableEq, Repr

/-- An HTTP method used in `buildRouter`. -/
inductive Method where
  | GET
  | HEAD
  | OPTIONS
deriving DecidableEq, Repr

/-- One registered route: method, path, handler and the exact-match flag
(the spec's `requiresExactPrefixMatch`, the boolean third argument of the
registration calls in `src/server.go`). -/
structure RouteEntry where
  method : Method
  path : String
  handler : HandlerExpr
  exactMatch : Bool
deriving DecidableEq, Repr

/-- Function `buildRouter` from `src/server.go`: the route entries, in registration
order.  (`r.HealthHandler = handleHealth` is modelled separately by
`routerHealthHandler`.) -/
def buildRouterRoutes : List RouteEntry :=
  [⟨.GET, "/", .handleLanding, true⟩,
   ⟨.GET, "", .handleLanding, true⟩,
   ⟨.GET, "/", .metrics (.panicHandler (.cors (.secret .handleProcessing))),
     false⟩,
   ⟨.HEAD, "/", .cors .handleHead, false⟩,
   ⟨.OPTIONS, "/", .cors .handleHead, false⟩]

/-- Assignment `r.HealthHandler = handleHealth` in `buildRouter`. -/
def routerHealthHandler : Option String → RouteHandler := handleHealth

/-- Interpretation of a handler expression: middleware constructors map to
the middleware functions above; `handleHead` is the concrete handler;
`handleLanding` and `handleProcessing` are not part of `src/`, so their
semantics is a parameter. -/
def interp (cfg : Config) (leaf : HandlerExpr → RouteHandler) :
    HandlerExpr → RouteHandler
  | .metrics h => withMetrics cfg (interp cfg leaf h)
  | .panicHandler h => withPanicHandler cfg (interp cfg leaf h)
  | .cors h => withCORS cfg (interp cfg leaf h)
  | .secret h => withSecret cfg (interp cfg leaf h)
  | .handleHead => handleHead
  | e => leaf e

/-- C6: the main processing route — the unique non-exact `GET "/"` entry —
nests the middleware in exactly the order metrics, panic handler, CORS,
secret, around the processing handler, and its interpretation is the
corresponding nesting of the middleware functions. -/
theorem buildRouter_main_route_order :
    buildRouterRoutes.filter (fun e => e.method == Method.GET && !e.exactMatch) =
      [⟨.GET, "/",
        .metrics (.panicHandler (.cors (.secret .handleProcessing))), false⟩] ∧
    ∀ (cfg : Config) (leaf : HandlerExpr → RouteHandler),
      interp cfg leaf
          (.metrics (.panicHandler (.cors (.secret .handleProcessing)))) =
        withMetrics cfg (withPanicHandler cfg (withCORS cfg
          (withSecret cfg (leaf .handleProcessing)))) :=
  ⟨rfl, fun cfg leaf => rfl⟩

/-- C8: `HEAD /` and `OPTIONS /` are registered with `handleHead` wrapped
only in CORS, and for every configuration (any secret, any origin) that
composition completes without panic, writes exactly status 200 and no
body. -/
theorem head_options_routes :
    buildRouterRoutes.filter
        (fun e => e.method == Method.HEAD || e.method == Method.OPTIONS) =
      [⟨.HEAD, "/", .cors .handleHead, false⟩,
       ⟨.OPTIONS, "/", .cors .handleHead, false⟩] ∧
    ∀ (cfg : Config) (leaf : HandlerExpr → RouteHandler) (r : Request)
      (st : Trace), ∃ st',
        interp cfg leaf (.cors .handleHead) r st = (st', none) ∧
        st'.statuses = st.statuses ++ [200] ∧
        st'.bodyWrites = st.bodyWrites := by
  refine ⟨rfl, fun cfg leaf r st => ?_⟩
  show ∃ st', withCORS cfg handleHead r st = (st', none) ∧ _
  unfold withCORS handleHead
  by_cases h : cfg.allowOrigin.length > 0 <;>
    · refine ⟨_, rfl, ?_, ?_⟩ <;>
        simp [h, Trace.setHeader, Trace.writeHeader, Trace.logResponse]

/-- The `http.Server` tuning performed by `startServer` in `src/server.go`:
read timeout, max header bytes, idle timeout and the keep-alive switch.
A Go `http.Server` starts with keep-alives enabled and no idle timeout. -/
structure ServerSettings where
  readTimeoutSeconds : Int
  maxHeaderBytes : Nat
  idleTimeoutSeconds : Option Int
  keepAlivesEnabled : Bool
deriving DecidableEq, Repr

/-- The settings computed by `startServer` (`src/server.go`): `ReadTimeout`
from `config.ReadRequestTimeout` seconds, `MaxHeaderBytes` the literal
`1 << 20`, then either `IdleTimeout = config.KeepAliveTimeout` seconds when
that is positive, or `SetKeepAlivesEnabled(false)` otherwise. -/
def serverSettings (cfg : Config) : ServerSettings :=
  let s : ServerSettings := ⟨cfg.readRequestTimeout, 1 <<< 20, none, true⟩
  if cfg.keepAliveTimeout > 0 then
    { s with idleTimeoutSeconds := some cfg.keepAliveTimeout }
  else
    { s with keepAlivesEnabled := false }

/-- C7: the read timeout is always taken from the configured
read-request-timeout; a positive keep-alive timeout becomes the idle
timeout (keep-alives stay enabled), and otherwise keep-alives are disabled
and no idle timeout is set. -/
theorem startServer_timeouts (cfg : Config) :
    (serverSettings cfg).readTimeoutSeconds = cfg.readRequestTimeout ∧
    (cfg.keepAliveTimeout > 0 →
      (serverSettings cfg).idleTimeoutSeconds = some cfg.keepAliveTimeout ∧
      (serverSettings cfg).keepAlivesEnabled = true) ∧
    (¬ cfg.keepAliveTimeout > 0 →
      (serverSettings cfg).keepAlivesEnabled = false ∧
      (serverSettings cfg).idleTimeoutSeconds = none) := by
  unfold serverSettings
  by_cases h : cfg.keepAliveTimeout > 0 <;> simp [h]

theorem startServer_timeouts_witness :
    ¬ cfgPlainW.keepAliveTimeout > 0 ∧
    (serverSettings cfgPlainW).keepAlivesEnabled = false ∧
    (serverSettings cfgPlainW).idleTimeoutSeconds = none := by
  refine ⟨by decide, ?_, ?_⟩
  · exact ((startServer_timeouts cfgPlainW).2.2 (by decide)).1
  · exact ((startServer_timeouts cfgPlainW).2.2 (by decide)).2

/-- C10: the maximum request-header size is the hardcoded constant
`1 << 20` = 1048576 bytes, identical under every configuration. -/
theorem startServer_maxHeaderBytes :
    ∀ cfg : Config, (serverSettings cfg).maxHeaderBytes = 1048576 ∧
      ∀ cfg' : Config,
        (serverSettings cfg).maxHeaderBytes =
          (serverSettings cfg').maxHeaderBytes := by
  have hm : ∀ cfg : Config, (serverSettings cfg).maxHeaderBytes = 1048576 := by
    intro cfg
    unfold serverSettings
    by_cases h : cfg.keepAliveTimeout > 0 <;> simp [h]
  exact fun cfg => ⟨hm cfg, fun cfg' => by rw [hm cfg, hm cfg']⟩

/-- The listener wrapping decided in `startServer` (`src/server.go`):
`netutil.LimitListener(l, config.MaxClients)` is applied only when
`config.MaxClients > 0`; `none` is the raw listener with no cap. -/
def effectiveCap (cfg : Config) : Option Nat :=
  if cfg.maxClients > 0 then some cfg.maxClients.toNat else none

/-- Modelled from the spec: `netutil.LimitListener` admission control — an
accept proceeds only while fewer than the cap many connections are active
("accept blocks once the limit is reached rather than failing"); with no
cap it always proceeds. -/
def acceptEnabled : Option Nat → Nat → Bool
  | none, _ => true
  | some n, a => decide (a < n)

/-- A connection event: an accept attempt, or a connection release. -/
inductive ConnEvent where
  | accept
  | release
deriving DecidableEq, Repr

/-- One step of the admission-control transition system: a blocked accept
is delayed — the active count is unchanged and the connection waits — and a
release frees a slot. -/
def stepConn (cap : Option Nat) (a : Nat) : ConnEvent → Nat
  | .accept => if acceptEnabled cap a then a + 1 else a
  | .release => a - 1

/-- Running a sequence of connection events from an active count. -/
def runConn (cap : Option Nat) (a : Nat) (evs : List ConnEvent) : Nat :=
  evs.foldl (stepConn cap) a

theorem runConn_le (n : Nat) (evs : List ConnEvent) :
    ∀ a, a ≤ n → runConn (some n) a evs ≤ n := by
  induction evs with
  | nil => intro a h; exact h
  | cons ev evs ih =>
    intro a h
    show runConn (some n) (stepConn (some n) a ev) evs ≤ n
    apply ih
    cases ev with
    | accept =>
      by_cases hlt : acceptEnabled (some n) a = true
      · have hn : a < n := by simpa [acceptEnabled] using hlt
        simp [stepConn, hlt]
        omega
      · simp [stepConn, hlt]
        exact h
    | release =>
      simp [stepConn]
      omega

/-- C9: with a configured limit N > 0 the listener is wrapped with a cap of
N, under which the active-connection count never exceeds N on any event
sequence, an accept is blocked exactly when N connections are active (so
the (N+1)-th accept is delayed, not rejected), and a release from a full
state re-enables accepting; with limit 0 (or negative) the listener is
unwrapped and accepts are never blocked. -/
theorem listener_cap_spec (cfg : Config) :
    (cfg.maxClients > 0 →
      effectiveCap cfg = some cfg.maxClients.toNat ∧
      (∀ evs, runConn (effectiveCap cfg) 0 evs ≤ cfg.maxClients.toNat) ∧
      (∀ a, acceptEnabled (effectiveCap cfg) a = false ↔
        cfg.maxClients.toNat ≤ a) ∧
      acceptEnabled (effectiveCap cfg)
        (stepConn (effectiveCap cfg) cfg.maxClients.toNat .release) = true) ∧
    (¬ cfg.maxClients > 0 →
      effectiveCap cfg = none ∧
      ∀ a, acceptEnabled (effectiveCap cfg) a = true) := by
  constructor
  · intro hpos
    have hc : effectiveCap cfg = some cfg.maxClients.toNat := by
      unfold effectiveCap
      rw [if_pos hpos]
    have hn : 0 < cfg.maxClients.toNat := by omega
    refine ⟨hc, ?_, ?_, ?_⟩
    · intro evs
      rw [hc]
      exact runConn_le _ evs 0 (Nat.zero_le _)
    · intro a
      rw [hc]
      simp [acceptEnabled]
    · rw [hc]
      simp [stepConn, acceptEnabled]
      omega
  · intro hneg
    have hc : effectiveCap cfg = none := by
      unfold effectiveCap
      rw [if_neg hneg]
    exact ⟨hc, fun a => by rw [hc]; rfl⟩

/-- A configuration with a connection cap of 4. -/
def cfgCapW : Config := ⟨"", "", false, false, 4, 10, 0⟩

theorem listener_cap_spec_witness :
    cfgCapW.maxClients > 0 ∧
    effectiveCap cfgCapW = some 4 ∧
    runConn (effectiveCap cfgCapW) 0 (List.replicate 9 ConnEvent.accept) ≤ 4 := by
  refine ⟨by decide, ?_, ?_⟩
  · exact ((listener_cap_spec cfgCapW).1 (by decide)).1
  · exact ((listener_cap_spec cfgCapW).1 (by decide)).2.1 _
